import Mathlib

/-!
Shallow embedding of the audio capture / transcription pipeline of
`src/components/GetUserAudio.tsx` (the `CaptureAudioGeneric` component and the
module-level transcription variables), together with theorems settling the
frozen claims about it.

Strings are embedded as `List Char` (JavaScript strings with the operations
`slice` and `trim` used by the source).  Audio chunks are opaque values; a
`Blob` built from a chunk list is the concatenation of those chunks, so it is
embedded as the chunk list itself.  Asynchronous service completions
(`audioBackend.transcribe(...).then(...)`, `audioBackend.summarize(...).then(...)`)
are embedded as explicit events interleaved with the synchronous
`ondataavailable` handler, so out-of-order completion is expressible.
-/

namespace Notelify

/-- JavaScript `s.slice(start, stop)` on strings (both indices clamped). -/
def jsSlice (s : List Char) (start stop : Nat) : List Char :=
  (s.take stop).drop start

/-- JavaScript `s.trim()`: drop whitespace from both ends. -/
def jsTrim (s : List Char) : List Char :=
  ((s.dropWhile Char.isWhitespace).reverse.dropWhile Char.isWhitespace).reverse

/-- Shorthand turning a string literal into the embedded string type. -/
def str (s : String) : List Char := s.data

/-- One discrete unit of encoded audio data emitted by the recorder
(`e.data` in `recorder.ondataavailable`).  Opaque payload, identified by id. -/
structure Chunk where
  id : Nat
deriving DecidableEq, Repr

/-- The two capture sources: `CaptureAudioGeneric` is instantiated once as
`MicAudioButton` (`captureFrom = "Microphone"`) and once as
`DesktopAudioButton` (`captureFrom = "Desktop"`). -/
inductive Source where
  | Microphone
  | Desktop
deriving DecidableEq, Repr

/-- Lines 74–77 of `GetUserAudio.tsx`, the chunk-buffer update run at each
`ondataavailable` event:

    if (chunks.length > 1) { chunks.pop(); }
    chunks.push(e.data);

`pop` removes the last element, `push` appends. -/
def chunksStep (chunks : List Chunk) (c : Chunk) : List Chunk :=
  (if chunks.length > 1 then chunks.dropLast else chunks) ++ [c]

/-- The chunk buffer after a sequence of `ondataavailable` events carrying the
given chunks, starting from the empty buffer `let chunks: BlobPart[] = []`. -/
def chunksAfter (arrivals : List Chunk) : List Chunk :=
  arrivals.foldl chunksStep []

/-- Line 80: `const blob = new Blob(chunks, ...)` — the blob submitted to the
transcription service is the concatenation of the buffered chunks, embedded as
the chunk list itself. -/
def combinedBlob (arrivals : List Chunk) : List Chunk :=
  chunksAfter arrivals

/-- Process-wide state of the pipeline.  `firstString`, `transcriptionText`
and `transcriptionIteration` embed the module-level variables of lines 25–27
(they are globals of the module, not fields of a component instance, so both
capture instances read and write the same three variables).  `micChunks` and
`desktopChunks` are the per-instance `chunks` buffers (line 45, one per
component instance).  `summaryCalls` records the arguments passed to
`audioBackend.summarize` in order (line 99), and `editorContent` the last
value pushed through `props.editorRef.current.setContent` (line 101). -/
structure ProcState where
  firstString : List Char
  transcriptionText : List Char
  transcriptionIteration : Nat
  micChunks : List Chunk
  desktopChunks : List Chunk
  summaryCalls : List (List Char)
  editorContent : Option (List Char)
deriving DecidableEq, Repr

/-- The state at module load: empty strings, iteration 0, empty buffers. -/
def initProc : ProcState :=
  { firstString := []
    transcriptionText := []
    transcriptionIteration := 0
    micChunks := []
    desktopChunks := []
    summaryCalls := []
    editorContent := none }

/-- The chunk buffer belonging to one capture instance. -/
def chunksOf (src : Source) (p : ProcState) : List Chunk :=
  match src with
  | Source.Microphone => p.micChunks
  | Source.Desktop => p.desktopChunks

/-- Replace the chunk buffer of one capture instance. -/
def setChunks (src : Source) (cs : List Chunk) (p : ProcState) : ProcState :=
  match src with
  | Source.Microphone => { p with micChunks := cs }
  | Source.Desktop => { p with desktopChunks := cs }

/-- Atomic events of the cooperative loop.  `dataAvailable src c` is the
synchronous body of `recorder.ondataavailable` of instance `src` receiving
chunk `c` (lines 71–103); it schedules the service calls whose completions are
the remaining events.  `transcribeFirstDone text` is the continuation of line
85–87 (`firstString = text`), `transcribeAppendDone text` the continuation of
lines 93–95, `summarizeDone summary` the continuation of lines 99–102.
`startSession src` is a later `captureAudio` start of instance `src`: it
creates a fresh recorder and a fresh `chunks` array for that instance and
touches none of the module-level transcription variables. -/
inductive PEvent where
  | startSession (src : Source)
  | dataAvailable (src : Source) (c : Chunk)
  | transcribeFirstDone (text : List Char)
  | transcribeAppendDone (text : List Char)
  | summarizeDone (summary : List Char)
deriving DecidableEq, Repr

/-- One atomic step of the loop.  The `dataAvailable` case is the synchronous
handler body: buffer update (lines 74–77), then

    if (transcriptionIteration === 0) {
        audioBackend.transcribe(blob).then(text => { firstString = text })
        transcriptionText = firstString;
        transcriptionIteration++;
    }
    if (transcriptionIteration > 0) {
        audioBackend.transcribe(blob).then(text => { ... });
    }
    audioBackend.summarize(transcriptionText).then(...)

The two `.then` continuations run strictly after the handler returns, so
`transcriptionText = firstString` reads the value `firstString` has at handler
time, and `summarize` receives the value `transcriptionText` has after the
first `if` block.  The completion events apply the continuations:
`transcribeAppendDone` appends `text.slice(firstString.length, text.length).trim()`
with `firstString` read at completion time. -/
def step (p : ProcState) : PEvent → ProcState
  | PEvent.startSession src => setChunks src [] p
  | PEvent.dataAvailable src c =>
      let p := setChunks src (chunksStep (chunksOf src p) c) p
      let p :=
        if p.transcriptionIteration = 0 then
          { p with transcriptionText := p.firstString
                   transcriptionIteration := p.transcriptionIteration + 1 }
        else p
      { p with summaryCalls := p.summaryCalls ++ [p.transcriptionText] }
  | PEvent.transcribeFirstDone text => { p with firstString := text }
  | PEvent.transcribeAppendDone text =>
      { p with transcriptionText :=
          p.transcriptionText ++ jsTrim (jsSlice text p.firstString.length text.length) }
  | PEvent.summarizeDone summary => { p with editorContent := some summary }

/-- Run a sequence of loop events. -/
def run (p : ProcState) (es : List PEvent) : ProcState :=
  es.foldl step p

/-- The anchor text a capture instance observes.  `firstString` is a
module-level variable (line 25), so every instance reads the same global. -/
def observedAnchor (_src : Source) (p : ProcState) : List Char :=
  p.firstString

/-- The accumulated transcript a capture instance observes (module-level
`transcriptionText`, line 26). -/
def observedAccumulated (_src : Source) (p : ProcState) : List Char :=
  p.transcriptionText

/-- The merge-iteration count a capture instance observes (module-level
`transcriptionIteration`, line 27). -/
def observedIteration (_src : Source) (p : ProcState) : Nat :=
  p.transcriptionIteration

/-- Whether the `transcriptionIteration === 0` branch (lines 83–90) runs in a
given step: only a data-available event with the global counter still 0. -/
def takesFirstBranch (p : ProcState) : PEvent → Bool
  | PEvent.dataAvailable _ _ => p.transcriptionIteration == 0
  | _ => false

/-- How many steps of a trace execute the `transcriptionIteration === 0`
branch. -/
def countFirstBranch : ProcState → List PEvent → Nat
  | _, [] => 0
  | p, e :: es =>
      (if takesFirstBranch p e then 1 else 0) + countFirstBranch (step p e) es

/-- Kind of a media track of the captured stream. -/
inductive TrackKind where
  | audio
  | video
deriving DecidableEq, Repr

/-- A media track.  `ended` is true once the track has stopped producing data,
whether through `track.stop()` or through external termination (the browser
ending the capture); both leave the track in the same observable state. -/
structure Track where
  kind : TrackKind
  ended : Bool
deriving DecidableEq, Repr

/-- Embeds `track.stop()`: the track moves to the ended state. -/
def stopTrack (t : Track) : Track :=
  { t with ended := true }

/-- External termination of a track (e.g. the user ends screen sharing through
the browser chrome): the environment puts the track in the same ended state
that `track.stop()` produces. -/
def endTrack (t : Track) : Track :=
  { t with ended := true }

/-- State of a `MediaRecorder` (`recorder.state`). -/
inductive RecorderState where
  | inactive
  | recording
  | paused
deriving DecidableEq, Repr

/-- Per-instance session state of the component: the two React state cells
`mediaRecorder` / `mediaStream` (lines 43–44), both `null` before a
successful `captureAudio`.  A stream is its track list. -/
structure SessionState where
  mediaRecorder : Option RecorderState
  mediaStream : Option (List Track)
deriving DecidableEq, Repr

/-- The idle session: no recorder, no stream (both React cells still null). -/
def idleSession : SessionState :=
  { mediaRecorder := none, mediaStream := none }

/-- The device layer error class of §7: permission denied or no device. -/
inductive DeviceError where
  | DeviceUnavailable
deriving DecidableEq, Repr

/-- Embeds `captureAudio` (lines 47–110), given the device layer's response to
`getMediaStream()`.  On success: the stream is stored, for `Desktop` the video
tracks are stopped (`mediaStream.getVideoTracks().forEach(track => track.stop())`)
and `onended` observers are attached to every track, a recorder is created and
started (`recorder.start(timeSlice)`), so the session is recording.  On device
failure the `await` throws and the whole body is skipped by
`catch (err) { console.log(err) }`: the state is untouched and the error is
swallowed — the second component of the result is the error the caller
receives, which is `none` in every case. -/
def captureAudio (captureFrom : Source) (s : SessionState)
    (deviceResult : Except DeviceError (List Track)) :
    SessionState × Option DeviceError :=
  match deviceResult with
  | Except.error _ => (s, none)
  | Except.ok tracks =>
      let tracks :=
        if captureFrom = Source.Desktop then
          tracks.map (fun t => if t.kind = TrackKind.video then stopTrack t else t)
        else tracks
      ({ mediaRecorder := some RecorderState.recording,
         mediaStream := some tracks }, none)

/-- Embeds `stopAudio` (lines 112–123):

    if (mediaRecorder && mediaRecorder.state !== "inactive") { mediaRecorder.stop(); }
    if (mediaStream) { mediaStream.getTracks().forEach(track => track.stop()); }
-/
def stopAudio (s : SessionState) : SessionState :=
  let s :=
    match s.mediaRecorder with
    | some st =>
        if st ≠ RecorderState.inactive then
          { s with mediaRecorder := some RecorderState.inactive }
        else s
    | none => s
  match s.mediaStream with
  | some tracks => { s with mediaStream := some (tracks.map stopTrack) }
  | none => s

/-- The body of the `track.onended` observer attached for `Desktop` sessions
(lines 60–64): stop the recorder if it is not already inactive.  It does not
touch the stream's tracks. -/
def onEndedHandler (s : SessionState) : SessionState :=
  match s.mediaRecorder with
  | some st =>
      if st ≠ RecorderState.inactive then
        { s with mediaRecorder := some RecorderState.inactive }
      else s
  | none => s

/-- External termination of the captured stream: every track of the stream is
ended by the environment, and each ended track fires its attached `onended`
observer. -/
def externalStreamEnd (s : SessionState) : SessionState :=
  (s.mediaStream.getD []).foldl (fun acc _ => onEndedHandler acc)
    { s with mediaStream := s.mediaStream.map (fun ts => ts.map endTrack) }

theorem foldl_chunksStep_pair (rest : List Chunk) (c d : Chunk) :
    rest.foldl chunksStep [c, d] = [c, rest.getLastD d] := by
  induction rest generalizing d with
  | nil => rfl
  | cons e rest ih =>
      have h1 : chunksStep [c, d] e = [c, e] := by
        simp [chunksStep]
      simp only [List.foldl_cons, h1, ih, List.getLastD_cons]

theorem chunksAfter_cons (c : Chunk) (cs : List Chunk) :
    chunksAfter (c :: cs) =
      (match cs with
       | [] => [c]
       | d :: rest => [c, rest.getLastD d]) := by
  cases cs with
  | nil => rfl
  | cons d rest =>
      have h0 : chunksStep [] c = [c] := rfl
      have h1 : chunksStep [c] d = [c, d] := by simp [chunksStep]
      simp only [chunksAfter, List.foldl_cons, h0, h1, foldl_chunksStep_pair]

/-- C4: the chunk buffer holds at most two chunks after any sequence of
arrivals, the first chunk is always retained as the head (the header is never
replaced), each later arrival replaces the latest chunk so the buffer is
`[header]` after one arrival and `[header, latest]` afterwards, and the blob
submitted to transcription is the concatenation of exactly those chunks. -/
theorem chunk_buffer_bounded (c : Chunk) (cs : List Chunk) :
    chunksAfter (c :: cs) =
      (match cs with
       | [] => [c]
       | d :: rest => [c, rest.getLastD d])
    ∧ (chunksAfter (c :: cs)).length ≤ 2
    ∧ (chunksAfter (c :: cs)).head? = some c
    ∧ combinedBlob (c :: cs) = chunksAfter (c :: cs) := by
  refine ⟨chunksAfter_cons c cs, ?_, ?_, rfl⟩ <;>
    rw [chunksAfter_cons] <;> cases cs <;> simp

/-- C7: `stopAudio` is idempotent (a second call leaves the state produced by
the first unchanged) and a no-op on an idle session with no recorder and no
stream; it is a total function of the session state, so it never throws,
whatever happened before. -/
theorem stopAudio_idempotent (s : SessionState) :
    stopAudio (stopAudio s) = stopAudio s ∧ stopAudio idleSession = idleSession := by
  refine ⟨?_, rfl⟩
  rcases s with ⟨r, ms⟩
  rcases r with _ | st <;> rcases ms with _ | ts <;>
    first
      | rfl
      | (by_cases hst : st = RecorderState.inactive <;>
          simp [stopAudio, hst, stopTrack, List.map_map, Function.comp])
      | simp [stopAudio, stopTrack, List.map_map, Function.comp]

/-- Counterexample to C6 as stated: when the device layer denies permission,
the caller of `captureAudio` receives no error at all — the exception is
caught and logged inside `captureAudio`, so the caller observes `none`, not
`DeviceUnavailable`. -/
theorem captureAudio_denied_cex :
    captureAudio Source.Microphone idleSession
        (Except.error DeviceError.DeviceUnavailable) = (idleSession, none)
    ∧ (none : Option DeviceError) ≠ some DeviceError.DeviceUnavailable := by
  exact ⟨rfl, by decide⟩

/-- C6 amended: when the device layer fails, the session state is unchanged
(still idle, no recorder created), but the error is swallowed by the
`catch` block (logged to the console) rather than delivered to the caller. -/
theorem captureAudio_denied_no_change (src : Source) (s : SessionState)
    (e : DeviceError) :
    captureAudio src s (Except.error e) = (s, none) := rfl

/-- C9: a completion of the `iteration > 0` transcription call whose result is
no longer than `firstString` appends the empty suffix: the slice
`text.slice(firstString.length, text.length)` is empty, its trim is empty,
and the state is left entirely unchanged — no error, no mis-sliced fragment. -/
theorem short_result_appends_nothing (p : ProcState) (text : List Char)
    (h : text.length ≤ p.firstString.length) :
    step p (PEvent.transcribeAppendDone text) = p := by
  have hs : jsSlice text p.firstString.length text.length = [] := by
    simp only [jsSlice, List.take_length]
    exact List.drop_eq_nil_of_le h
  simp [step, hs, jsTrim]

/-- Witness for C9 at a concrete state: anchor "Hello", result "Hi". -/
theorem short_result_appends_nothing_witness :
    (str "Hi").length ≤ ({ initProc with firstString := str "Hello" } : ProcState).firstString.length
    ∧ step { initProc with firstString := str "Hello" }
        (PEvent.transcribeAppendDone (str "Hi"))
      = { initProc with firstString := str "Hello" } :=
  ⟨by decide,
   short_result_appends_nothing { initProc with firstString := str "Hello" }
     (str "Hi") (by decide)⟩

/-- Trace of the first chunk arrival with the transcription service returning
"Hello", completions applied in submission order: the handler runs, then the
`firstString = text` continuation, then the `iteration > 0` continuation that
the same arrival also scheduled (both branches run on the first arrival,
because the handler increments the counter before the second `if`). -/
def firstArrivalTrace : List PEvent :=
  [PEvent.dataAvailable Source.Microphone ⟨0⟩,
   PEvent.transcribeFirstDone (str "Hello"),
   PEvent.transcribeAppendDone (str "Hello")]

/-- Trace of the spec's §8 scenario: the service returns "Hello" for the first
combined blob and "Hello world" for the second, all completions in submission
order. -/
def helloWorldTrace : List PEvent :=
  [PEvent.dataAvailable Source.Microphone ⟨0⟩,
   PEvent.transcribeFirstDone (str "Hello"),
   PEvent.transcribeAppendDone (str "Hello"),
   PEvent.dataAvailable Source.Microphone ⟨1⟩,
   PEvent.transcribeAppendDone (str "Hello world")]

/-- Same two-arrival scenario, used to inspect the summarization calls. -/
def summaryScenarioTrace : List PEvent :=
  [PEvent.dataAvailable Source.Microphone ⟨0⟩,
   PEvent.transcribeFirstDone (str "Hello"),
   PEvent.transcribeAppendDone (str "Hello"),
   PEvent.dataAvailable Source.Microphone ⟨1⟩,
   PEvent.transcribeAppendDone (str "Hello world")]

/-- Trace of a Desktop arrival and merge completion, service returning "Hi". -/
def desktopMergeTrace : List PEvent :=
  [PEvent.dataAvailable Source.Desktop ⟨0⟩,
   PEvent.transcribeFirstDone (str "Hi")]

/-- C2, evaluated at the failing input: after the first chunk arrival with the
service returning "Hello" and both scheduled completions applied,
`firstString` (the anchor) is "Hello" but `transcriptionText` is still empty —
the handler assigned `transcriptionText = firstString` synchronously, before
the transcribe promise resolved, so the anchor was never copied into the
accumulated text and the two differ, contrary to the claim and §4.3. -/
theorem first_merge_anchor_not_propagated :
    (run initProc firstArrivalTrace).firstString = str "Hello"
    ∧ (run initProc firstArrivalTrace).transcriptionText = []
    ∧ (run initProc firstArrivalTrace).transcriptionText
        ≠ (run initProc firstArrivalTrace).firstString := by decide

/-- C3, evaluated at the spec's own scenario: with the service returning
"Hello" then "Hello world", the code produces `accumulatedText` = "" after the
first merge and "world" after the second, not "Hello" then "Hello world" — the
anchor never enters the accumulated text. -/
theorem hello_world_scenario_fails :
    (run initProc (helloWorldTrace.take 3)).transcriptionText ≠ str "Hello"
    ∧ (run initProc helloWorldTrace).transcriptionText = str "world"
    ∧ (run initProc helloWorldTrace).transcriptionText ≠ str "Hello world" := by decide

/-- Counterexample to C5 as stated: in the two-arrival scenario the second
merge produces the transcript "world", but no summarization call carries
"world" — both calls were issued synchronously at chunk arrival, before that
arrival's merge completed, so each carries the older value "". -/
theorem summary_not_merged_value_cex :
    (run initProc summaryScenarioTrace).summaryCalls = [[], []]
    ∧ (run initProc summaryScenarioTrace).transcriptionText = str "world"
    ∧ (run initProc summaryScenarioTrace).transcriptionText
        ∉ (run initProc summaryScenarioTrace).summaryCalls := by decide

/-- C5 amended: the summarization service is invoked exactly once per chunk
arrival, synchronously in the data handler, with the transcript value current
at that moment (after the first-arrival anchor assignment, but not including
the merge that the same arrival scheduled, whose completion is still pending);
on completion the summary unconditionally overwrites the editor content, with
no freshness comparison. -/
theorem summarize_per_arrival (p : ProcState) (src : Source) (c : Chunk)
    (t : List Char) :
    (step p (PEvent.dataAvailable src c)).summaryCalls
      = p.summaryCalls ++
          [if p.transcriptionIteration = 0 then p.firstString else p.transcriptionText]
    ∧ (step p (PEvent.summarizeDone t)).editorContent = some t := by
  constructor
  · cases src <;> by_cases h : p.transcriptionIteration = 0 <;>
      simp [step, setChunks, chunksOf, h]
  · rfl

/-- Counterexample to C1 as stated: a merge performed by the Desktop instance
changes the iteration count and the anchor text the Microphone instance
observes, because `firstString`, `transcriptionText` and
`transcriptionIteration` are module-level variables shared by both instances. -/
theorem noninterference_cex :
    observedIteration Source.Microphone (run initProc desktopMergeTrace)
      ≠ observedIteration Source.Microphone initProc
    ∧ observedAnchor Source.Microphone (run initProc desktopMergeTrace)
      ≠ observedAnchor Source.Microphone initProc := by decide

/-- C1 amended: the two capture instances share the transcript state — at
every state both observe the same anchor, accumulated text and iteration
count, so merges by one instance are merges of the state the other observes;
only the chunk buffers are per-instance (a Desktop arrival plus merge
completion leaves the Microphone chunk buffer unchanged). -/
theorem shared_transcript_state (p : ProcState) (c : Chunk) (t : List Char) :
    (run p [PEvent.dataAvailable Source.Desktop c,
            PEvent.transcribeFirstDone t]).micChunks = p.micChunks
    ∧ observedAnchor Source.Microphone p = observedAnchor Source.Desktop p
    ∧ observedAccumulated Source.Microphone p = observedAccumulated Source.Desktop p
    ∧ observedIteration Source.Microphone p = observedIteration Source.Desktop p := by
  refine ⟨?_, rfl, rfl, rfl⟩
  by_cases h : p.transcriptionIteration = 0 <;>
    simp [run, step, setChunks, chunksOf, h]

theorem onEndedHandler_inactive (s : SessionState)
    (h : s.mediaRecorder = some RecorderState.inactive) :
    onEndedHandler s = s := by
  simp [onEndedHandler, h]

theorem foldl_onEnded_fixed (l : List Track) (s : SessionState)
    (h : s.mediaRecorder = some RecorderState.inactive) :
    l.foldl (fun acc _ => onEndedHandler acc) s = s := by
  induction l with
  | nil => rfl
  | cons t l ih =>
      rw [List.foldl_cons, onEndedHandler_inactive s h]
      exact ih

/-- C8: for a Desktop session in `Recording`, external termination of the
captured stream (its tracks end and each fires the attached `onended`
observer, which stops the recorder) leaves exactly the state `stopAudio` would
produce — recorder inactive, every track of the stream ended — and a
subsequent `stopAudio` call on that state is a no-op. -/
theorem external_end_equals_stop (ts : List Track) (h : ts ≠ []) :
    externalStreamEnd { mediaRecorder := some RecorderState.recording,
                        mediaStream := some ts }
      = stopAudio { mediaRecorder := some RecorderState.recording,
                    mediaStream := some ts }
    ∧ stopAudio (externalStreamEnd { mediaRecorder := some RecorderState.recording,
                                     mediaStream := some ts })
      = externalStreamEnd { mediaRecorder := some RecorderState.recording,
                            mediaStream := some ts } := by
  obtain ⟨t, rest, rfl⟩ := List.exists_cons_of_ne_nil h
  have hh : onEndedHandler
      { mediaRecorder := some RecorderState.recording,
        mediaStream := some ((t :: rest).map endTrack) }
    = { mediaRecorder := some RecorderState.inactive,
        mediaStream := some ((t :: rest).map endTrack) } := by
    simp [onEndedHandler]
  have hext : externalStreamEnd
      { mediaRecorder := some RecorderState.recording, mediaStream := some (t :: rest) }
    = { mediaRecorder := some RecorderState.inactive,
        mediaStream := some ((t :: rest).map endTrack) } := by
    show (t :: rest).foldl (fun acc _ => onEndedHandler acc)
        { mediaRecorder := some RecorderState.recording,
          mediaStream := some ((t :: rest).map endTrack) }
      = { mediaRecorder := some RecorderState.inactive,
          mediaStream := some ((t :: rest).map endTrack) }
    rw [List.foldl_cons, hh]
    exact foldl_onEnded_fixed rest _ rfl
  have hstop : stopAudio
      { mediaRecorder := some RecorderState.recording, mediaStream := some (t :: rest) }
    = { mediaRecorder := some RecorderState.inactive,
        mediaStream := some ((t :: rest).map stopTrack) } := by
    simp [stopAudio]
  have hts : endTrack = stopTrack := rfl
  refine ⟨?_, ?_⟩
  · rw [hext, hstop, hts]
  · rw [hext]
    simp [stopAudio, List.map_map, Function.comp, endTrack, stopTrack]

/-- Witness track for C8: one live audio track. -/
def liveAudioTrack : Track :=
  { kind := TrackKind.audio, ended := false }

/-- Witness session for C8: a recording Desktop session over that track. -/
def recordingSession : SessionState :=
  { mediaRecorder := some RecorderState.recording, mediaStream := some [liveAudioTrack] }

/-- Witness for C8 at a concrete one-track Desktop stream. -/
theorem external_end_equals_stop_witness :
    ([liveAudioTrack] : List Track) ≠ []
    ∧ (externalStreamEnd recordingSession = stopAudio recordingSession
      ∧ stopAudio (externalStreamEnd recordingSession) = externalStreamEnd recordingSession) :=
  ⟨by decide, external_end_equals_stop [liveAudioTrack] (by decide)⟩

theorem step_iteration_mono (p : ProcState) (e : PEvent) :
    p.transcriptionIteration ≤ (step p e).transcriptionIteration := by
  cases e with
  | startSession src => cases src <;> simp [step, setChunks]
  | dataAvailable src c =>
      cases src <;> by_cases h : p.transcriptionIteration = 0 <;>
        simp [step, setChunks, chunksOf, h]
  | transcribeFirstDone t => simp [step]
  | transcribeAppendDone t => simp [step]
  | summarizeDone t => simp [step]

theorem run_iteration_mono (p : ProcState) (es : List PEvent) :
    p.transcriptionIteration ≤ (run p es).transcriptionIteration := by
  induction es generalizing p with
  | nil => exact le_refl _
  | cons e es ih =>
      simpa [run] using le_trans (step_iteration_mono p e) (ih (step p e))

theorem takesFirstBranch_step (p : ProcState) (e : PEvent)
    (h : takesFirstBranch p e = true) :
    1 ≤ (step p e).transcriptionIteration := by
  cases e with
  | dataAvailable src c =>
      have h0 : p.transcriptionIteration = 0 := by
        simpa [takesFirstBranch] using h
      cases src <;> simp [step, setChunks, chunksOf, h0]
  | startSession src => simp [takesFirstBranch] at h
  | transcribeFirstDone t => simp [takesFirstBranch] at h
  | transcribeAppendDone t => simp [takesFirstBranch] at h
  | summarizeDone t => simp [takesFirstBranch] at h

theorem countFirstBranch_zero (p : ProcState) (es : List PEvent)
    (h : 1 ≤ p.transcriptionIteration) :
    countFirstBranch p es = 0 := by
  induction es generalizing p with
  | nil => rfl
  | cons e es ih =>
      have hb : takesFirstBranch p e = false := by
        cases e <;> simp [takesFirstBranch]
        omega
      have h2 := ih (step p e) (le_trans h (step_iteration_mono p e))
      simp [countFirstBranch, hb, h2]

theorem countFirstBranch_le_one (p : ProcState) (es : List PEvent) :
    countFirstBranch p es ≤ 1 := by
  induction es generalizing p with
  | nil => simp [countFirstBranch]
  | cons e es ih =>
      by_cases hb : takesFirstBranch p e = true
      · have h0 := countFirstBranch_zero (step p e) es (takesFirstBranch_step p e hb)
        simp [countFirstBranch, hb, h0]
      · have hb' : takesFirstBranch p e = false := by
          simpa using hb
        simpa [countFirstBranch, hb'] using ih (step p e)

/-- C10: the merge iteration counter is a module-level variable that no event
ever decreases (so once positive it stays positive along any trace), the
`iteration == 0` branch that sets the anchor runs at most once in any trace of
the process, and starting a new capture session resets only that instance's
chunk buffer — the anchor, accumulated text and iteration counter carry their
previous values over into the new session. -/
theorem iteration_never_reset (p : ProcState) (es : List PEvent) :
    p.transcriptionIteration ≤ (run p es).transcriptionIteration
    ∧ countFirstBranch p es ≤ 1
    ∧ ∀ src,
        (step p (PEvent.startSession src)).firstString = p.firstString
        ∧ (step p (PEvent.startSession src)).transcriptionText = p.transcriptionText
        ∧ (step p (PEvent.startSession src)).transcriptionIteration
            = p.transcriptionIteration := by
  refine ⟨run_iteration_mono p es, countFirstBranch_le_one p es, ?_⟩
  intro src
  cases src <;> exact ⟨rfl, rfl, rfl⟩

end Notelify
